import Mathlib

/-!
Verification of the SmartRetail back-office application.

This file gives a shallow embedding, in Lean 4, of the pure business logic
of the repository (stock-status derivation, percentage-change arithmetic,
sequential ID allocation, the sale create/delete stock effects, the
employee-invitation flow, and the session gate on the JSON API endpoints),
translated from `core/views.py`, `core/invitation_views.py`,
`core/utils/report_queries.py` and `core/utils/supabase_queries.py`.

The remote Supabase tables are modelled as in-memory lists of rows; each
request handler becomes a function from the relevant table state (plus the
request data) to the new table state and a response value.  Machine floats
are modelled as exact rationals; Python `round` (banker's rounding) is
modelled exactly on rationals.
-/

namespace SmartRetail

/-! ## Stock status derivation (`core/views.py`, `calculate_stock_status`) -/

/-- Embeds `calculate_stock_status(current_stock, max_stock, low_stock_threshold)`
from `core/views.py`: `out_of_stock` when the stock is exactly 0, otherwise
`low_stock` when at or below the threshold, otherwise `high_stock` when at or
above the maximum, otherwise `completed`. -/
def calculate_stock_status (current_stock max_stock low_stock_threshold : Int) : String :=
  if current_stock = 0 then "out_of_stock"
  else if current_stock ≤ low_stock_threshold then "low_stock"
  else if current_stock ≥ max_stock then "high_stock"
  else "completed"

/-! ## Percentage arithmetic (`core/utils/report_queries.py`) -/

/-- Python `round(x)` on a rational: round half to even (banker's rounding).
The integer part is taken with floor division `Int.fdiv q.num q.den`,
which equals `⌊q⌋` since `q.den > 0`. -/
def pyRoundHalfEven (q : ℚ) : ℤ :=
  let f : ℤ := Int.fdiv q.num q.den
  let r : ℚ := q - (f : ℚ)
  if r < 1/2 then f
  else if 1/2 < r then f + 1
  else if f % 2 = 0 then f else f + 1

/-- Python `round(x, 1)`: round to one decimal place, half to even. -/
def pyRound1 (q : ℚ) : ℚ := (pyRoundHalfEven (q * 10) : ℚ) / 10

/-- Embeds `calculate_percentage_change(current, previous)` from
`core/utils/report_queries.py`: 100 when `previous == 0 < current`, 0 when
`previous == 0 ≥ current`, otherwise `round(((current - previous) / previous) * 100, 1)`. -/
def calculate_percentage_change (current previous : ℚ) : ℚ :=
  if previous = 0 then (if 0 < current then 100 else 0)
  else pyRound1 ((current - previous) / previous * 100)

/-! ## Dashboard comparison helpers (`core/utils/supabase_queries.py`)

`get_sales_comparison` / `get_items_comparison` fetch today's and
yesterday's totals and then apply pure arithmetic to them; the fetched
totals are the two parameters here. -/

/-- The dict returned by `get_sales_comparison`. -/
structure SalesComparison where
  today : ℚ
  yesterday : ℚ
  percentage : ℚ
  is_positive : Bool
  deriving Repr, DecidableEq

/-- Embeds the arithmetic of `get_sales_comparison` from
`core/utils/supabase_queries.py`, applied to the fetched totals. -/
def get_sales_comparison (today_sales yesterday_sales : ℚ) : SalesComparison :=
  if 0 < yesterday_sales then
    let change := (today_sales - yesterday_sales) / yesterday_sales * 100
    { today := today_sales, yesterday := yesterday_sales,
      percentage := pyRound1 change, is_positive := decide (0 ≤ change) }
  else
    { today := today_sales, yesterday := yesterday_sales,
      percentage := 0, is_positive := true }

/-- The dict returned by `get_items_comparison` (item counts are integers). -/
structure ItemsComparison where
  today : ℤ
  yesterday : ℤ
  percentage : ℚ
  is_positive : Bool
  deriving Repr, DecidableEq

/-- Embeds the arithmetic of `get_items_comparison` from
`core/utils/supabase_queries.py`, applied to the fetched item counts. -/
def get_items_comparison (today_items yesterday_items : ℤ) : ItemsComparison :=
  if 0 < yesterday_items then
    let change : ℚ := ((today_items : ℚ) - (yesterday_items : ℚ)) / (yesterday_items : ℚ) * 100
    { today := today_items, yesterday := yesterday_items,
      percentage := pyRound1 change, is_positive := decide (0 ≤ change) }
  else
    { today := today_items, yesterday := yesterday_items,
      percentage := 0, is_positive := true }

/-! ## Sequential ID allocators

Three copies of the same scan-and-probe loop live in the source:
employee IDs (`api_add_employee`, `signup_submit`,
`api_add_employee_with_invitation`: `range(1, 10000)`, `f"{prefix}{i:04d}"`,
`next_num` initialised to 1), product IDs (`api_add_stock`: `range(1000)`,
`f"#{prefix}{i:03d}"`, `next_num` initialised to 0) and sale IDs
(`api_create_sale`: `range(1, 100000)`, `f"{i:04d}"`, initialised to 1). -/

/-- Python `f"{n:0wd}"` for a natural number: decimal digits left-padded
with zeros to width `w`. -/
def zpad (w : Nat) (n : Nat) : String :=
  let s := Nat.repr n
  String.mk (List.replicate (w - s.length) '0') ++ s

/-- Candidate employee ID `f"{prefix}{i:04d}"`. -/
def employee_test_id (pfx : String) (i : Nat) : String := pfx ++ zpad 4 i

/-- The number chosen by the employee-ID probe loop in `api_add_employee`:
first `i` in `range(1, 10000)` whose candidate is unused, else the
initial value 1. -/
def employee_next_num (pfx : String) (existing : List String) : Nat :=
  ((List.range' 1 9999).find? (fun i => !(existing.contains (employee_test_id pfx i)))).getD 1

/-- The employee ID allocated by `api_add_employee`. -/
def generate_employee_id (pfx : String) (existing : List String) : String :=
  employee_test_id pfx (employee_next_num pfx existing)

/-- Candidate product ID `f"#{prefix}{i:03d}"`. -/
def product_test_id (pfx : String) (i : Nat) : String := "#" ++ pfx ++ zpad 3 i

/-- The number chosen by the product-ID probe loop in `api_add_stock`:
first `i` in `range(1000)` whose candidate is unused, else the initial
value 0. -/
def product_next_num (pfx : String) (existing : List String) : Nat :=
  ((List.range 1000).find? (fun i => !(existing.contains (product_test_id pfx i)))).getD 0

/-- The product ID allocated by `api_add_stock` when creating a product. -/
def generate_product_id (pfx : String) (existing : List String) : String :=
  product_test_id pfx (product_next_num pfx existing)

/-- Candidate sale ID `f"{i:04d}"`. -/
def sale_test_id (i : Nat) : String := zpad 4 i

/-- The number chosen by the sale-ID probe loop in `api_create_sale`:
first `i` in `range(1, 100000)` whose candidate is unused, else 1. -/
def sale_next_num (existing : List String) : Nat :=
  ((List.range' 1 99999).find? (fun i => !(existing.contains (sale_test_id i)))).getD 1

/-- The sale ID allocated by `api_create_sale`. -/
def generate_sale_id (existing : List String) : String :=
  sale_test_id (sale_next_num existing)

/-! ## The `products` table -/

/-- A row of the remote `products` table. -/
structure Product where
  product_id : String
  name : String
  category : String
  price : ℚ
  current_stock : Int
  max_stock : Int
  low_stock_threshold : Int
  status : String
  deriving Repr, DecidableEq

/-- Embeds `client.table('products').select('*').eq('product_id', pid)` followed by
taking `data[0]`: the first row whose `product_id` matches. -/
def findProduct (db : List Product) (pid : String) : Option Product :=
  db.find? (fun p => p.product_id == pid)

/-- Overwrite `current_stock` and `status` of a row, the two columns written
by the stock-mutating `update(...)` calls. -/
def setStockStatus (s : Int) (st : String) (p : Product) : Product :=
  { p with current_stock := s, status := st }

/-- Embeds `client.table('products').update({'current_stock': s, 'status': st}).eq('product_id', pid)`:
every row whose `product_id` matches receives the same two values. -/
def updateProductStock (db : List Product) (pid : String) (s : Int) (st : String) : List Product :=
  db.map (fun p => if p.product_id == pid then setStockStatus s st p else p)

/-- The product ids of a table, in row order. -/
def pids (db : List Product) : List String := db.map (·.product_id)

/-- The columns of a row never written by the sale create/delete stock
updates: id, maximum and threshold. -/
def layoutKey (p : Product) : String × Int × Int :=
  (p.product_id, p.max_stock, p.low_stock_threshold)

/-- The id/max/threshold layout of a table, in row order. -/
def layout (db : List Product) : List (String × Int × Int) := db.map layoutKey

/-- The stored `status` of every row equals the status derived from its
stored stock triple — the invariant that C6 asserts every product write
preserves. -/
def statusInv (db : List Product) : Prop :=
  ∀ p ∈ db, p.status = calculate_stock_status p.current_stock p.max_stock p.low_stock_threshold

/-- A line item of a sale, as used by `api_create_sale` (request items) and
stored in `sales_items` (rows): the referenced product and the quantity.
`unit_price` and `subtotal` are also carried by the source rows but never
read by any stock computation, so they are omitted here. -/
structure SaleItem where
  product_id : String
  quantity : Int
  deriving Repr, DecidableEq

/-- The per-item loop of `api_create_sale` (`core/views.py`): for each line
item, fetch the product afresh; if it exists, insert the `sales_items` row
and set the product's stock to `max(0, current_stock - quantity)` with the
status recomputed; items whose product does not exist are skipped.
Returns the final `products` table and the inserted `sales_items` rows. -/
def create_sale_items : List SaleItem → List Product → List Product × List SaleItem
  | [], db => (db, [])
  | item :: rest, db =>
    match findProduct db item.product_id with
    | none => create_sale_items rest db
    | some p =>
      let new_stock := max 0 (p.current_stock - item.quantity)
      let new_status := calculate_stock_status new_stock p.max_stock p.low_stock_threshold
      let db1 := updateProductStock db item.product_id new_stock new_status
      let res := create_sale_items rest db1
      (res.1, item :: res.2)

/-- One step of the stock-restore loop of `api_delete_sale`: the product
joined to the item row was fetched once, before the loop, so it is looked
up in the `snapshot` table; the update is applied to the current table. -/
def restore_sale_item (snapshot : List Product) (db : List Product) (item : SaleItem) : List Product :=
  match findProduct snapshot item.product_id with
  | none => db
  | some p =>
    let new_stock := p.current_stock + item.quantity
    let new_status := calculate_stock_status new_stock p.max_stock p.low_stock_threshold
    updateProductStock db item.product_id new_stock new_status

/-- The stock-restore phase of `api_delete_sale` (`core/views.py`): the
items are fetched with their joined products in one query (the snapshot is
the table at that moment), then stock is restored item by item. -/
def delete_sale_restore (db : List Product) (items : List SaleItem) : List Product :=
  items.foldl (restore_sale_item db) db

/-! ## The `employees` table and the invitation flow -/

/-- A row of the remote `employees` table.  Timestamps are rationals,
measured in hours (the code compares `datetime` differences against
`timedelta(hours=expiry_hours)`). -/
structure Employee where
  id : Nat
  employee_id : String
  name : String
  email : String
  role : String
  address : Option String
  profile_picture : Option String
  status : String
  invitation_token : Option String
  invitation_sent_at : Option ℚ
  invitation_accepted_at : Option ℚ
  deriving Repr, DecidableEq

/-- Whether `re.search(r'[A-Z]', password)` succeeds. -/
def hasUpper (s : String) : Bool := s.data.any (fun c => 'A' ≤ c && c ≤ 'Z')

/-- Whether `re.search(r'[a-z]', password)` succeeds. -/
def hasLower (s : String) : Bool := s.data.any (fun c => 'a' ≤ c && c ≤ 'z')

/-- Whether `re.search(r'[0-9]', password)` succeeds. -/
def hasDigit (s : String) : Bool := s.data.any (fun c => '0' ≤ c && c ≤ '9')

/-- The outcome of `invitation_accept_submit`: which flash/redirect the
handler produces. -/
inductive SubmitOutcome where
  | missing_password | password_mismatch | password_too_short | password_weak
  | invalid_token | already_used | auth_error | success
  deriving Repr, DecidableEq

/-- Embeds `invitation_accept_submit` from `core/invitation_views.py`.
`auth_ok` abstracts whether the external auth-account creation (admin
client or regular signup fallback) succeeds; `now` is the current time.
Note the handler performs no expiry check on `invitation_sent_at`. -/
def invitation_accept_submit (employees : List Employee) (token password confirm_password : String)
    (auth_ok : Bool) (now : ℚ) : List Employee × SubmitOutcome :=
  if password = "" ∨ confirm_password = "" then (employees, .missing_password)
  else if password ≠ confirm_password then (employees, .password_mismatch)
  else if password.length < 8 then (employees, .password_too_short)
  else if ¬ (hasUpper password ∧ hasLower password ∧ hasDigit password) then
    (employees, .password_weak)
  else
    match employees.find? (fun e => e.invitation_token == some token) with
    | none => (employees, .invalid_token)
    | some emp =>
      if emp.invitation_accepted_at.isSome then (employees, .already_used)
      else if auth_ok then
        (employees.map (fun e =>
          if e.id == emp.id then
            { e with status := "active", invitation_accepted_at := some now,
                     invitation_token := none }
          else e),
         .success)
      else (employees, .auth_error)

/-- The outcome of the GET page `invitation_accept_view`. -/
inductive ViewOutcome where
  | invalid | already_used | valid
  deriving Repr, DecidableEq

/-- Embeds `invitation_accept_view` from `core/invitation_views.py`,
including its expiry check: a token whose row was sent more than
`expiry_hours` ago renders the invalid page. -/
def invitation_accept_view (employees : List Employee) (token : String)
    (now expiry_hours : ℚ) : ViewOutcome :=
  match employees.find? (fun e => e.invitation_token == some token) with
  | none => .invalid
  | some emp =>
    if emp.invitation_accepted_at.isSome then .already_used
    else
      match emp.invitation_sent_at with
      | none => .valid
      | some sent => if expiry_hours < now - sent then .invalid else .valid

/-! ## The `sales` and `sales_items` tables, and the whole backend state -/

/-- A row of the remote `sales` table. -/
structure Sale where
  id : Nat
  sale_id : String
  user_id : String
  total_amount : ℚ
  payment_method : String
  status : String
  deriving Repr, DecidableEq

/-- A row of the remote `sales_items` table (`unit_price`/`subtotal`
omitted as in `SaleItem`; `sale_ref` is the internal id of the sale row). -/
structure SaleItemRow where
  sale_ref : Nat
  item : SaleItem
  deriving Repr, DecidableEq

/-- The whole remote backend state touched by the JSON endpoints. -/
structure Database where
  employees : List Employee
  products : List Product
  sales : List Sale
  sales_items : List SaleItemRow
  deriving Repr, DecidableEq

/-- The JSON responses of the API endpoints: `{'error': 'Unauthorized'}`
with HTTP 401, the other error codes with their message, or a success
payload (payload contents elided). -/
inductive ApiResp where
  | unauthorized
  | badRequest (msg : String)
  | notFound (msg : String)
  | ok
  deriving Repr, DecidableEq

/-- Whether `request.session.get('user_id')` is falsy: absent or empty. -/
def sessionAnonymous (session : Option String) : Bool := session.getD "" == ""

/-! ## JSON endpoint embeddings (`core/views.py`, `core/invitation_views.py`)

Each endpoint first checks `request.session.get('user_id')` and answers
`401 {'error': 'Unauthorized'}` if it is missing, before any Supabase
call; the remaining logic is translated from the handler bodies.  Inputs
that the runtime supplies (the Supabase-generated internal row id of an
insert, fresh random tokens, the current time) are parameters. -/

/-- Embeds `api_dashboard_metrics`: reads only, the state is returned
unchanged. -/
def api_dashboard_metrics (session : Option String) (db : Database) : Database × ApiResp :=
  if sessionAnonymous session then (db, .unauthorized)
  else (db, .ok)

/-- Embeds `category_prefixes.get(category, '9')` from `api_add_stock`. -/
def category_prefixes (category : String) : String :=
  if category = "Beverages" then "1"
  else if category = "Bakery & Snacks" then "2"
  else if category = "Health & Medicine" then "3"
  else if category = "Stationery" then "4"
  else if category = "Personal Care & Hygiene" then "5"
  else "9"

/-- Embeds `api_add_stock`: create a new product (default `max_stock` 50,
`low_stock_threshold` 10, price 0, status derived from the initial
quantity) or add stock to an existing one, recomputing its status. -/
def api_add_stock (session : Option String) (db : Database)
    (is_new : Bool) (quantity : Int) (product_name category : String)
    (product_id : Option String) : Database × ApiResp :=
  if sessionAnonymous session then (db, .unauthorized)
  else if quantity ≤ 0 then (db, .badRequest "Invalid quantity")
  else if is_new then
    if product_name = "" ∨ category = "" then
      (db, .badRequest "Product name and category are required")
    else
      let pfx := category_prefixes category
      let existing := (db.products.filter
        (fun p => ("#" ++ pfx).isPrefixOf p.product_id)).map (·.product_id)
      let new_product_id := generate_product_id pfx existing
      let initial_status := calculate_stock_status quantity 50 10
      let new_product : Product :=
        { product_id := new_product_id, name := product_name, category := category,
          price := 0, current_stock := quantity, max_stock := 50,
          low_stock_threshold := 10, status := initial_status }
      ({ db with products := db.products ++ [new_product] }, .ok)
  else
    if product_id.getD "" = "" then (db, .badRequest "Product ID is required")
    else
      match findProduct db.products (product_id.getD "") with
      | none => (db, .notFound "Product not found")
      | some p =>
        let new_stock := p.current_stock + quantity
        let new_status := calculate_stock_status new_stock p.max_stock p.low_stock_threshold
        ({ db with products :=
            updateProductStock db.products (product_id.getD "") new_stock new_status }, .ok)

/-- The optional fields of an `api_update_product` request body. -/
structure ProductUpdate where
  product_name : Option String
  category : Option String
  price : Option ℚ
  current_stock : Option Int
  max_stock : Option Int
  low_stock_threshold : Option Int
  deriving Repr, DecidableEq

/-- No key of the request body is present (`update_data` stays empty). -/
def ProductUpdate.isEmpty (u : ProductUpdate) : Bool :=
  u.product_name.isNone && u.category.isNone && u.price.isNone &&
  u.current_stock.isNone && u.max_stock.isNone && u.low_stock_threshold.isNone

/-- A stock-related key is present, triggering the status recomputation. -/
def ProductUpdate.touchesStock (u : ProductUpdate) : Bool :=
  u.current_stock.isSome || u.max_stock.isSome || u.low_stock_threshold.isSome

/-- Apply `update(update_data)` to one row: provided fields overwrite,
absent fields keep the stored value; `st` is the recomputed status when
`update_data` carries one. -/
def applyProductUpdate (u : ProductUpdate) (st : Option String) (p : Product) : Product :=
  { p with
    name := u.product_name.getD p.name,
    category := u.category.getD p.category,
    price := u.price.getD p.price,
    current_stock := u.current_stock.getD p.current_stock,
    max_stock := u.max_stock.getD p.max_stock,
    low_stock_threshold := u.low_stock_threshold.getD p.low_stock_threshold,
    status := st.getD p.status }

/-- Embeds `api_update_product`: when a stock-related field is updated, the
current row is fetched, missing values are filled in from it, and the
status is recomputed from the merged triple and written along with the
provided fields. -/
def api_update_product (session : Option String) (db : Database)
    (product_id : Option String) (u : ProductUpdate) : Database × ApiResp :=
  if sessionAnonymous session then (db, .unauthorized)
  else if product_id.getD "" = "" then (db, .badRequest "Product ID is required")
  else if u.isEmpty then (db, .badRequest "No data to update")
  else
    match findProduct db.products (product_id.getD "") with
    | none => (db, .notFound "Product not found")
    | some p0 =>
      ({ db with products := (db.products.map
          (fun p => if p.product_id == product_id.getD "" then
            applyProductUpdate u
              (if u.touchesStock then
                some (calculate_stock_status (u.current_stock.getD p0.current_stock)
                  (u.max_stock.getD p0.max_stock)
                  (u.low_stock_threshold.getD p0.low_stock_threshold))
              else none) p
          else p)) }, .ok)

/-- Embeds `api_delete_product`: check existence, then delete every row
with the given `product_id`. -/
def api_delete_product (session : Option String) (db : Database)
    (product_id : Option String) : Database × ApiResp :=
  if sessionAnonymous session then (db, .unauthorized)
  else if product_id.getD "" = "" then (db, .badRequest "Product ID is required")
  else
    match findProduct db.products (product_id.getD "") with
    | none => (db, .notFound "Product not found")
    | some _ =>
      ({ db with products :=
          db.products.filter (fun p => !(p.product_id == product_id.getD "")) }, .ok)

/-- Model of the email regex `^[^\s@]+@[^\s@]+\.[^\s@]+$` of
`api_add_employee`: a non-empty whitespace-free local part, one `@`, and a
domain containing a dot that is neither its first nor its last character.
(No claim constrains the email check; this models the regex's accepted
language.) -/
def valid_email (s : String) : Bool :=
  match s.splitOn "@" with
  | [l, d] =>
    l.length > 0 && l.data.all (fun c => !c.isWhitespace) &&
    d.data.all (fun c => !c.isWhitespace) &&
    ((d.data.drop 1).dropLast.contains '.')
  | _ => false

/-- Embeds `role_prefixes.get(role, 'E')` from `api_add_employee`. -/
def role_prefixes (role : String) : String :=
  if role = "Manager" then "M"
  else if role = "Supplier" then "SP"
  else if role = "Sales" then "S"
  else "E"

/-- Embeds `api_add_employee` (`core/views.py`): validate, reject duplicate
emails, allocate a role-prefixed employee id over the ids matching
`like(prefix%)`, and insert an `active` row.  `new_db_id` is the
backend-assigned internal id; `address` of `""` is stored as null. -/
def api_add_employee (session : Option String) (db : Database)
    (name email role address : String) (profile_picture : Option String)
    (new_db_id : Nat) : Database × ApiResp :=
  if sessionAnonymous session then (db, .unauthorized)
  else if name = "" ∨ email = "" ∨ role = "" then
    (db, .badRequest "Name, email, and role are required")
  else if ¬ valid_email email then (db, .badRequest "Invalid email format")
  else if ¬ (role = "Manager" ∨ role = "Supplier" ∨ role = "Sales") then
    (db, .badRequest "Invalid role")
  else if (db.employees.find? (fun e => e.email == email)).isSome then
    (db, .badRequest "Email already exists")
  else
    let pfx := role_prefixes role
    let existing := (db.employees.filter
      (fun e => pfx.isPrefixOf e.employee_id)).map (·.employee_id)
    let employee_id := generate_employee_id pfx existing
    let row : Employee :=
      { id := new_db_id, employee_id := employee_id, name := name, email := email,
        role := role, address := if address = "" then none else some address,
        profile_picture := profile_picture, status := "active",
        invitation_token := none, invitation_sent_at := none,
        invitation_accepted_at := none }
    ({ db with employees := db.employees ++ [row] }, .ok)

/-- Embeds `api_add_employee_with_invitation` (`core/invitation_views.py`):
as `api_add_employee`, but the row is inserted with status `pending`, a
fresh invitation token and `invitation_sent_at := now`; the invitation
email goes out on a fire-and-forget thread and does not touch the tables. -/
def api_add_employee_with_invitation (session : Option String) (db : Database)
    (name email role address : String) (profile_picture : Option String)
    (new_db_id : Nat) (new_token : String) (now : ℚ) : Database × ApiResp :=
  if sessionAnonymous session then (db, .unauthorized)
  else if name = "" ∨ email = "" ∨ role = "" then
    (db, .badRequest "Name, email, and role are required")
  else if ¬ valid_email email then (db, .badRequest "Invalid email format")
  else if ¬ (role = "Manager" ∨ role = "Supplier" ∨ role = "Sales") then
    (db, .badRequest "Invalid role")
  else if (db.employees.find? (fun e => e.email == email)).isSome then
    (db, .badRequest "Email already exists")
  else
    let pfx := role_prefixes role
    let existing := (db.employees.filter
      (fun e => pfx.isPrefixOf e.employee_id)).map (·.employee_id)
    let employee_id := generate_employee_id pfx existing
    let row : Employee :=
      { id := new_db_id, employee_id := employee_id, name := name, email := email,
        role := role, address := if address = "" then none else some address,
        profile_picture := profile_picture, status := "pending",
        invitation_token := some new_token, invitation_sent_at := some now,
        invitation_accepted_at := none }
    ({ db with employees := db.employees ++ [row] }, .ok)

/-- Embeds `api_update_employee`: validate, reject an email belonging to a
different employee, then overwrite name/email/role/address/picture of the
rows with the given internal id. -/
def api_update_employee (session : Option String) (db : Database)
    (emp_db_id : Option Nat) (name email role address : String)
    (new_picture current_picture : Option String) : Database × ApiResp :=
  if sessionAnonymous session then (db, .unauthorized)
  else if emp_db_id.isNone then (db, .badRequest "Employee ID is required")
  else if name = "" ∨ email = "" ∨ role = "" then
    (db, .badRequest "Name, email, and role are required")
  else if ¬ valid_email email then (db, .badRequest "Invalid email format")
  else if ¬ (role = "Manager" ∨ role = "Supplier" ∨ role = "Sales") then
    (db, .badRequest "Invalid role")
  else if (db.employees.find?
      (fun e => e.email == email && !(e.id == emp_db_id.getD 0))).isSome then
    (db, .badRequest "Email already exists")
  else if (db.employees.find? (fun e => e.id == emp_db_id.getD 0)).isNone then
    (db, .notFound "Employee not found")
  else
    let pic := match new_picture with
      | some s => some s
      | none => current_picture
    ({ db with employees := db.employees.map (fun e =>
        if e.id == emp_db_id.getD 0 then
          { e with name := name, email := email, role := role,
                   address := if address = "" then none else some address,
                   profile_picture := pic }
        else e) }, .ok)

/-- Embeds `api_delete_employee`: check existence by internal id, then
delete. -/
def api_delete_employee (session : Option String) (db : Database)
    (emp_db_id : Option Nat) : Database × ApiResp :=
  if sessionAnonymous session then (db, .unauthorized)
  else if emp_db_id.isNone then (db, .badRequest "Employee ID is required")
  else if (db.employees.find? (fun e => e.id == emp_db_id.getD 0)).isNone then
    (db, .notFound "Employee not found")
  else
    ({ db with employees :=
        db.employees.filter (fun e => !(e.id == emp_db_id.getD 0)) }, .ok)

/-- Embeds `api_create_sale` (`core/views.py`): validate, allocate the next
sale id over the existing ones, insert the sale row (status `completed`,
`user_id` truncated to `#` plus its first three characters), then run the
per-item loop `create_sale_items` inserting the `sales_items` rows and
decrementing stock.  `new_db_id` is the backend id of the inserted sale;
`now` only feeds the stored date and is elided. -/
def api_create_sale (session : Option String) (db : Database)
    (payment_method : String) (total_amount : ℚ) (items : List SaleItem)
    (new_db_id : Nat) : Database × ApiResp :=
  if sessionAnonymous session then (db, .unauthorized)
  else if payment_method = "" ∨ total_amount ≤ 0 ∨ items = [] then
    (db, .badRequest "Invalid sale data")
  else
    let sale_id := generate_sale_id (db.sales.map (·.sale_id))
    let user_id := "#" ++ (session.getD "").take 3
    let sale : Sale :=
      { id := new_db_id, sale_id := sale_id, user_id := user_id,
        total_amount := total_amount, payment_method := payment_method,
        status := "completed" }
    let res := create_sale_items items db.products
    ({ db with sales := db.sales ++ [sale],
               products := res.1,
               sales_items := db.sales_items ++
                 res.2.map (fun it => { sale_ref := new_db_id, item := it }) }, .ok)

/-- Embeds `api_delete_sale` (`core/views.py`): find the sale, fetch its
items with their joined products in one query, restore stock per item from
that snapshot, then delete the item rows and the sale row. -/
def api_delete_sale (session : Option String) (db : Database)
    (sale_db_id : Option Nat) : Database × ApiResp :=
  if sessionAnonymous session then (db, .unauthorized)
  else if sale_db_id.isNone then (db, .badRequest "Sale ID is required")
  else
    match db.sales.find? (fun s => s.id == sale_db_id.getD 0) with
    | none => (db, .notFound "Sale not found")
    | some _ =>
      let items := (db.sales_items.filter
        (fun r => r.sale_ref == sale_db_id.getD 0)).map (·.item)
      ({ db with products := delete_sale_restore db.products items,
                 sales_items := db.sales_items.filter
                   (fun r => !(r.sale_ref == sale_db_id.getD 0)),
                 sales := db.sales.filter
                   (fun s => !(s.id == sale_db_id.getD 0)) }, .ok)

/-- Embeds `api_get_sale`: reads only. -/
def api_get_sale (session : Option String) (db : Database)
    (sale_db_id : Option Nat) : Database × ApiResp :=
  if sessionAnonymous session then (db, .unauthorized)
  else if sale_db_id.isNone then (db, .badRequest "Sale ID is required")
  else
    match db.sales.find? (fun s => s.id == sale_db_id.getD 0) with
    | none => (db, .notFound "Sale not found")
    | some _ => (db, .ok)

/-- Embeds `api_resend_invitation` (`core/invitation_views.py`): unless the
employee has already accepted, store a fresh token and a new
`invitation_sent_at`, then send the email synchronously. -/
def api_resend_invitation (session : Option String) (db : Database)
    (emp_db_id : Option Nat) (new_token : String) (now : ℚ) : Database × ApiResp :=
  if sessionAnonymous session then (db, .unauthorized)
  else if emp_db_id.isNone then (db, .badRequest "Employee ID is required")
  else
    match db.employees.find? (fun e => e.id == emp_db_id.getD 0) with
    | none => (db, .notFound "Employee not found")
    | some emp =>
      if emp.status = "active" ∧ emp.invitation_accepted_at.isSome then
        (db, .badRequest "Employee has already accepted invitation")
      else
        ({ db with employees := db.employees.map (fun e =>
            if e.id == emp_db_id.getD 0 then
              { e with invitation_token := some new_token,
                       invitation_sent_at := some now }
            else e) }, .ok)

/-! ## Test fixtures -/

/-- Fixture: a pending employee invited at time 0 with token `"tok"`. -/
def pendingEmployee : Employee :=
  { id := 1, employee_id := "S0001", name := "Ana", email := "ana@example.com",
    role := "Sales", address := none, profile_picture := none, status := "pending",
    invitation_token := some "tok", invitation_sent_at := some 0,
    invitation_accepted_at := none }

/-- Fixture: a product with 2 units in stock (threshold 10, max 50). -/
def teaProduct : Product :=
  { product_id := "A", name := "Tea", category := "Beverages", price := 0,
    current_stock := 2, max_stock := 50, low_stock_threshold := 10,
    status := "low_stock" }

/-- Fixture: a product with 10 units in stock (threshold 5, max 50). -/
def coffeeProduct : Product :=
  { product_id := "B", name := "Coffee", category := "Beverages", price := 0,
    current_stock := 10, max_stock := 50, low_stock_threshold := 5,
    status := "completed" }

/-- Fixture matching the spec's worked example: 5 units in stock,
threshold 10, max 50, hence `low_stock`. -/
def exampleProduct : Product :=
  { product_id := "#1000", name := "Milk", category := "Beverages", price := 0,
    current_stock := 5, max_stock := 50, low_stock_threshold := 10,
    status := "low_stock" }

/-- Fixture: a backend state holding the example product. -/
def exampleDatabase : Database :=
  { employees := [pendingEmployee], products := [exampleProduct],
    sales := [], sales_items := [] }

/-- Fixture: a backend state with two distinct products whose stored
statuses agree with the derived ones. -/
def demoDatabase : Database :=
  { employees := [], products := [teaProduct, coffeeProduct],
    sales := [], sales_items := [] }

/-! # Theorems -/

/-! ## Generic lemmas about the probe loop -/

/-- Probing with `find?` over `range' s n` returns a witness in range on which the
predicate first becomes true. -/
theorem find?_range'_least {p : Nat → Bool} {s n a : Nat}
    (h : (List.range' s n).find? p = some a) :
    p a = true ∧ s ≤ a ∧ a < s + n ∧ ∀ j, s ≤ j → j < a → p j = false := by
  induction n generalizing s with
  | zero => simp at h
  | succ n ih =>
    rw [List.range'_succ] at h
    by_cases hs : p s
    · rw [List.find?_cons_of_pos _ hs] at h
      obtain rfl := Option.some.inj h
      exact ⟨hs, Nat.le_refl _, by omega, fun j h1 h2 => by omega⟩
    · rw [List.find?_cons_of_neg _ hs] at h
      obtain ⟨hp, h1, h2, h3⟩ := ih h
      refine ⟨hp, by omega, by omega, fun j hj1 hj2 => ?_⟩
      by_cases hj : j = s
      · subst hj; simpa using hs
      · exact h3 j (by omega) hj2

/-- The scan-and-probe loop common to the three allocators: provided some
candidate in the probe range is unused, the chosen number's candidate is
unused and every smaller number in the range is used. -/
theorem next_num_spec (mk : Nat → String) (existing : List String) (s n d : Nat)
    (hex : ∃ i, s ≤ i ∧ i < s + n ∧ mk i ∉ existing) :
    mk (((List.range' s n).find? (fun i => !(existing.contains (mk i)))).getD d) ∉ existing ∧
    ∀ j, s ≤ j →
      j < (((List.range' s n).find? (fun i => !(existing.contains (mk i)))).getD d) →
      mk j ∈ existing := by
  obtain ⟨i, hi1, hi2, hi3⟩ := hex
  have hsome : ((List.range' s n).find? (fun i => !(existing.contains (mk i)))).isSome := by
    rw [List.find?_isSome]
    exact ⟨i, by simp [List.mem_range'_1, hi1, hi2], by simpa using hi3⟩
  obtain ⟨a, ha⟩ := Option.isSome_iff_exists.mp hsome
  obtain ⟨hp, _, _, hleast⟩ := find?_range'_least ha
  rw [ha]
  refine ⟨by simpa using hp, fun j hj1 hj2 => ?_⟩
  have := hleast j hj1 (by simpa using hj2)
  simpa using this

/-! ## Claim theorems: pure arithmetic -/

/-- C4: for all integer triples, `calculate_stock_status` returns
`out_of_stock` when the current stock is 0, else `low_stock` when at or
below the threshold, else `high_stock` when at or above the maximum, else
`completed` — covering in particular the boundaries `current = 0`,
`current = threshold` and `current = max`. -/
theorem calculate_stock_status_cases (c m t : Int) :
    (c = 0 → calculate_stock_status c m t = "out_of_stock") ∧
    (c ≠ 0 → c ≤ t → calculate_stock_status c m t = "low_stock") ∧
    (c ≠ 0 → t < c → m ≤ c → calculate_stock_status c m t = "high_stock") ∧
    (c ≠ 0 → t < c → c < m → calculate_stock_status c m t = "completed") := by
  unfold calculate_stock_status
  refine ⟨fun h => by simp [h], fun h1 h2 => by simp [h1, h2],
    fun h1 h2 h3 => ?_, fun h1 h2 h3 => ?_⟩
  · rw [if_neg h1, if_neg (by omega), if_pos (by exact h3)]
  · rw [if_neg h1, if_neg (by omega), if_neg (by omega)]

/-- Witness for C4 at the boundary triples. -/
theorem calculate_stock_status_cases_witness :
    calculate_stock_status 0 50 10 = "out_of_stock" ∧
    calculate_stock_status 10 50 10 = "low_stock" ∧
    calculate_stock_status 50 50 10 = "high_stock" ∧
    calculate_stock_status 20 50 10 = "completed" :=
  ⟨(calculate_stock_status_cases 0 50 10).1 rfl,
   (calculate_stock_status_cases 10 50 10).2.1 (by decide) (by decide),
   (calculate_stock_status_cases 50 50 10).2.2.1 (by decide) (by decide) (by decide),
   (calculate_stock_status_cases 20 50 10).2.2.2 (by decide) (by decide) (by decide)⟩

/-- C5: `calculate_percentage_change(cur, 0)` is 100 when `cur > 0` and 0
otherwise, and for `prev ≠ 0` it is `((cur - prev) / prev) * 100` rounded
to one decimal place. -/
theorem calculate_percentage_change_spec (cur prev : ℚ) :
    (0 < cur → calculate_percentage_change cur 0 = 100) ∧
    (¬ 0 < cur → calculate_percentage_change cur 0 = 0) ∧
    (prev ≠ 0 → calculate_percentage_change cur prev = pyRound1 ((cur - prev) / prev * 100)) := by
  unfold calculate_percentage_change
  exact ⟨fun h => by simp [h], fun h => by simp [h], fun h => by simp [h]⟩

/-- Witness for C5 at `cur = 7, prev = 0` and `cur = 150, prev = 100`. -/
theorem calculate_percentage_change_spec_witness :
    calculate_percentage_change 7 0 = 100 ∧
    calculate_percentage_change 150 100 = pyRound1 ((150 - 100) / 100 * 100) :=
  ⟨(calculate_percentage_change_spec 7 0).1 (by norm_num),
   (calculate_percentage_change_spec 150 100).2.2 (by norm_num)⟩

/-- C10: with a zero yesterday value the dashboard helpers report
percentage 0 and `is_positive = True` regardless of today's value, while
the report aggregator's `calculate_percentage_change` returns 100 for a
positive current value. -/
theorem comparison_yesterday_zero (t : ℚ) (n : ℤ) :
    (get_sales_comparison t 0).percentage = 0 ∧
    (get_sales_comparison t 0).is_positive = true ∧
    (get_items_comparison n 0).percentage = 0 ∧
    (get_items_comparison n 0).is_positive = true ∧
    (0 < t → calculate_percentage_change t 0 = 100) := by
  unfold get_sales_comparison get_items_comparison calculate_percentage_change
  norm_num

/-- Witness for C10 at today 50 (sales) and 5 (items). -/
theorem comparison_yesterday_zero_witness :
    (get_sales_comparison 50 0).percentage = 0 ∧
    (get_items_comparison 5 0).is_positive = true ∧
    calculate_percentage_change 50 0 = 100 :=
  ⟨(comparison_yesterday_zero 50 5).1,
   (comparison_yesterday_zero 50 5).2.2.2.1,
   (comparison_yesterday_zero 50 5).2.2.2.2 (by norm_num)⟩

/-! ## Claim theorems: ID allocation (C2) -/

set_option maxRecDepth 10000 in
/-- C2 counterexample: the product allocator probes `range(1000)`, i.e.
starting at 0, so with no existing IDs it allocates `#1000` (number 0),
not `#1001` as probing from 1 would give. -/
theorem product_allocator_starts_at_zero :
    generate_product_id "1" [] = "#1000" ∧ generate_product_id "1" [] ≠ "#1001" := by
  decide

set_option maxRecDepth 10000 in
/-- C2 (amended): each allocator probes its own range — employees
`1..9999`, sales `1..99999`, but products `0..999`, starting at 0 —
and, provided some candidate in that range is unused, allocates an ID
absent from the supplied existing-ID set such that every smaller number in
the probe range is used. -/
theorem allocators_return_least_unused (p1 p2 : String) (e1 e2 e3 : List String)
    (h1 : ∃ i, 1 ≤ i ∧ i < 10000 ∧ employee_test_id p1 i ∉ e1)
    (h2 : ∃ i, i < 1000 ∧ product_test_id p2 i ∉ e2)
    (h3 : ∃ i, 1 ≤ i ∧ i < 100000 ∧ sale_test_id i ∉ e3) :
    (generate_employee_id p1 e1 ∉ e1 ∧
      ∀ j, 1 ≤ j → j < employee_next_num p1 e1 → employee_test_id p1 j ∈ e1) ∧
    (generate_product_id p2 e2 ∉ e2 ∧
      ∀ j, j < product_next_num p2 e2 → product_test_id p2 j ∈ e2) ∧
    (generate_sale_id e3 ∉ e3 ∧
      ∀ j, 1 ≤ j → j < sale_next_num e3 → sale_test_id j ∈ e3) := by
  refine ⟨?_, ?_, ?_⟩
  · have := next_num_spec (employee_test_id p1) e1 1 9999 1
      (by obtain ⟨i, a, b, c⟩ := h1; exact ⟨i, a, by omega, c⟩)
    exact ⟨this.1, fun j hj1 hj2 => this.2 j hj1 hj2⟩
  · have := next_num_spec (product_test_id p2) e2 0 1000 0
      (by obtain ⟨i, a, b⟩ := h2; exact ⟨i, by omega, by omega, b⟩)
    have hrange : List.range 1000 = List.range' 0 1000 := List.range_eq_range' 1000
    unfold generate_product_id product_next_num
    rw [hrange]
    exact ⟨this.1, fun j hj2 => this.2 j (by omega) hj2⟩
  · have := next_num_spec sale_test_id e3 1 99999 1
      (by obtain ⟨i, a, b, c⟩ := h3; exact ⟨i, a, by omega, c⟩)
    exact ⟨this.1, fun j hj1 hj2 => this.2 j hj1 hj2⟩

set_option maxRecDepth 10000 in
/-- Witness for the amended C2 at small existing sets. -/
theorem allocators_return_least_unused_witness :
    generate_employee_id "S" ["S0001"] ∉ ["S0001"] ∧
    generate_product_id "1" ["#1000"] ∉ ["#1000"] ∧
    generate_sale_id ["0001", "0002"] ∉ ["0001", "0002"] := by
  have h := allocators_return_least_unused "S" "1" ["S0001"] ["#1000"] ["0001", "0002"]
    ⟨2, by decide⟩ ⟨1, by decide⟩ ⟨3, by decide⟩
  exact ⟨h.1.1, h.2.1.1, h.2.2.1⟩

/-! ## Claim theorems: session gate (C9) -/

/-- C9: every JSON endpoint answers `401 {'error': 'Unauthorized'}` and
leaves the backend state untouched when the session carries no `user_id`. -/
theorem endpoints_unauthorized (db : Database) (is_new : Bool) (q : Int)
    (pn cat nm em rl ad pm tok : String) (pid : Option String)
    (u : ProductUpdate) (pp np cp : Option String) (i : Nat) (eid sid : Option Nat)
    (ta now : ℚ) (items : List SaleItem) :
    api_dashboard_metrics none db = (db, .unauthorized) ∧
    api_add_stock none db is_new q pn cat pid = (db, .unauthorized) ∧
    api_update_product none db pid u = (db, .unauthorized) ∧
    api_delete_product none db pid = (db, .unauthorized) ∧
    api_add_employee none db nm em rl ad pp i = (db, .unauthorized) ∧
    api_add_employee_with_invitation none db nm em rl ad pp i tok now = (db, .unauthorized) ∧
    api_update_employee none db eid nm em rl ad np cp = (db, .unauthorized) ∧
    api_delete_employee none db eid = (db, .unauthorized) ∧
    api_create_sale none db pm ta items i = (db, .unauthorized) ∧
    api_delete_sale none db sid = (db, .unauthorized) ∧
    api_get_sale none db sid = (db, .unauthorized) ∧
    api_resend_invitation none db eid tok now = (db, .unauthorized) :=
  ⟨rfl, rfl, rfl, rfl, rfl, rfl, rfl, rfl, rfl, rfl, rfl, rfl⟩

/-! ## Lemmas about product-table updates -/

theorem layout_updateProductStock (db : List Product) (pid : String) (s : Int) (st : String) :
    layout (updateProductStock db pid s st) = layout db := by
  unfold layout updateProductStock
  rw [List.map_map]
  apply List.map_congr_left
  intro p _
  by_cases h : p.product_id == pid <;> simp [h, Function.comp, setStockStatus, layoutKey]

theorem pids_eq_map_fst_layout (db : List Product) : pids db = (layout db).map Prod.fst := by
  unfold pids layout
  rw [List.map_map]
  exact List.map_congr_left fun p _ => rfl

theorem pids_updateProductStock (db : List Product) (pid : String) (s : Int) (st : String) :
    pids (updateProductStock db pid s st) = pids db := by
  rw [pids_eq_map_fst_layout, layout_updateProductStock, ← pids_eq_map_fst_layout]

theorem findProduct_layout_congr {a b : List Product} (h : layout a = layout b) (pid : String) :
    (findProduct a pid).map layoutKey = (findProduct b pid).map layoutKey := by
  induction a generalizing b with
  | nil =>
    have hb : b = [] := by simpa [layout] using h.symm
    subst hb; rfl
  | cons p as ih =>
    rw [layout, List.map_cons] at h
    obtain ⟨q, bs, rfl, hq, hbs⟩ := List.map_eq_cons_iff.mp h.symm
    have hpid : q.product_id = p.product_id := congrArg Prod.fst hq
    unfold findProduct
    by_cases hp : p.product_id == pid
    · have hq3 : (q.product_id == pid) = true := by rw [hpid]; exact hp
      simp only [List.find?_cons, hp, hq3]
      simp [hq]
    · have hp2 : (p.product_id == pid) = false := by simpa using hp
      have hq3 : (q.product_id == pid) = false := by rw [hpid]; exact hp2
      simp only [List.find?_cons, hp2, hq3]
      exact ih (by unfold layout; exact hbs.symm)

theorem findProduct_isSome_congr {a b : List Product} (h : layout a = layout b) (pid : String) :
    (findProduct a pid).isSome = (findProduct b pid).isSome := by
  have := congrArg Option.isSome (findProduct_layout_congr h pid)
  simpa using this

theorem findProduct_some_pid {db : List Product} {P : String} {p : Product}
    (h : findProduct db P = some p) : p.product_id = P := by
  have := List.find?_some h
  simpa using this

theorem findProduct_updateProductStock (db : List Product) (pid P : String) (s : Int) (st : String) :
    findProduct (updateProductStock db pid s st) P =
      (findProduct db P).map
        (fun p => if p.product_id == pid then setStockStatus s st p else p) := by
  unfold findProduct updateProductStock
  rw [List.find?_map]
  have hcomp : ((fun p : Product => p.product_id == P) ∘
      (fun p => if p.product_id == pid then setStockStatus s st p else p)) =
      (fun p : Product => p.product_id == P) := by
    funext p
    by_cases h : p.product_id == pid <;> simp [h, Function.comp, setStockStatus]
  rw [hcomp]

theorem findProduct_update_ne {P pid : String} (h : P ≠ pid)
    (db : List Product) (s : Int) (st : String) :
    findProduct (updateProductStock db pid s st) P = findProduct db P := by
  rw [findProduct_updateProductStock]
  cases hf : findProduct db P with
  | none => rfl
  | some p =>
    have hp := findProduct_some_pid hf
    simp [hp, h]

theorem findProduct_update_self (db : List Product) (pid : String) (s : Int) (st : String) :
    findProduct (updateProductStock db pid s st) pid =
      (findProduct db pid).map (setStockStatus s st) := by
  rw [findProduct_updateProductStock]
  cases hf : findProduct db pid with
  | none => rfl
  | some p => simp [findProduct_some_pid hf]

theorem find?_key_unique {α : Type} (f : α → String) {l : List α}
    (hN : (l.map f).Nodup) {a : α} (ha : a ∈ l) :
    l.find? (fun x => f x == f a) = some a := by
  induction l with
  | nil => cases ha
  | cons h t ih =>
    rw [List.map_cons] at hN
    have hN2 := List.nodup_cons.mp hN
    rcases List.mem_cons.mp ha with rfl | hmem
    · simp only [List.find?_cons, beq_self_eq_true]
    · have hne : (f h == f a) = false := by
        refine beq_eq_false_iff_ne.mpr fun hbeq => ?_
        exact hN2.1 (by rw [hbeq]; exact List.mem_map_of_mem f hmem)
      simp only [List.find?_cons, hne]
      exact ih hN2.2 hmem

theorem statusInv_updateProductStock {db : List Product} {pid : String} {s : Int} {st : String}
    (hInv : statusInv db)
    (hkey : ∀ r ∈ db, r.product_id = pid →
      st = calculate_stock_status s r.max_stock r.low_stock_threshold) :
    statusInv (updateProductStock db pid s st) := by
  intro r' hr'
  obtain ⟨r, hr, rfl⟩ := List.mem_map.mp hr'
  by_cases h : r.product_id == pid
  · simpa [h, setStockStatus] using hkey r hr (eq_of_beq h)
  · simpa [h] using hInv r hr

/-! ## Lemmas about the sale create/delete loops -/

theorem create_sale_items_layout (items : List SaleItem) (db : List Product) :
    layout (create_sale_items items db).1 = layout db := by
  induction items generalizing db with
  | nil => rfl
  | cons it rest ih =>
    unfold create_sale_items
    cases hf : findProduct db it.product_id with
    | none => simpa [hf] using ih db
    | some p =>
      simp only [hf]
      rw [ih, layout_updateProductStock]

theorem create_sale_items_not_touched (items : List SaleItem) (db : List Product) (P : String)
    (h : ∀ x ∈ items, x.product_id ≠ P) :
    findProduct (create_sale_items items db).1 P = findProduct db P := by
  induction items generalizing db with
  | nil => rfl
  | cons it rest ih =>
    have hit : it.product_id ≠ P := h it (List.mem_cons_self it rest)
    have hrest : ∀ x ∈ rest, x.product_id ≠ P := fun x hx => h x (List.mem_cons_of_mem _ hx)
    unfold create_sale_items
    cases hf : findProduct db it.product_id with
    | none => simpa [hf] using ih db hrest
    | some p =>
      simp only [hf]
      rw [ih _ hrest, findProduct_update_ne (Ne.symm hit)]

theorem create_sale_items_stored (items : List SaleItem) (db : List Product) :
    (create_sale_items items db).2 =
      items.filter (fun x => (findProduct db x.product_id).isSome) := by
  induction items generalizing db with
  | nil => rfl
  | cons it rest ih =>
    unfold create_sale_items
    cases hf : findProduct db it.product_id with
    | none =>
      simp only [hf, List.filter_cons]
      rw [if_neg (by simp [hf])]
      exact ih db
    | some p =>
      simp only [hf, List.filter_cons]
      rw [if_pos (by simp [hf])]
      rw [ih]
      congr 1
      apply List.filter_congr
      intro x _
      exact findProduct_isSome_congr (layout_updateProductStock db it.product_id _ _) x.product_id

theorem create_sale_items_found {items : List SaleItem} {db : List Product} {P : String}
    {it : SaleItem} {p : Product}
    (hN : (items.map (fun x => x.product_id)).Nodup)
    (hfind : items.find? (fun x => x.product_id == P) = some it)
    (hp : findProduct db P = some p) :
    findProduct (create_sale_items items db).1 P =
      some (setStockStatus (max 0 (p.current_stock - it.quantity))
        (calculate_stock_status (max 0 (p.current_stock - it.quantity))
          p.max_stock p.low_stock_threshold) p) := by
  induction items generalizing db p with
  | nil => simp at hfind
  | cons h0 rest ih =>
    rw [List.map_cons] at hN
    have hN2 := List.nodup_cons.mp hN
    by_cases hh : h0.product_id == P
    · simp only [List.find?_cons, hh] at hfind
      obtain rfl := Option.some.inj hfind
      have hpid : h0.product_id = P := eq_of_beq hh
      have hrest : ∀ x ∈ rest, x.product_id ≠ P := by
        intro x hx hxP
        exact hN2.1 (by rw [hpid, ← hxP]; exact List.mem_map_of_mem _ hx)
      unfold create_sale_items
      rw [hpid]
      simp only [hp]
      rw [create_sale_items_not_touched rest _ P hrest]
      rw [findProduct_update_self, hp]
      rfl
    · have hh2 : (h0.product_id == P) = false := by simpa using hh
      simp only [List.find?_cons, hh2] at hfind
      have hne : P ≠ h0.product_id := fun e => hh (by rw [e]; exact beq_self_eq_true _)
      unfold create_sale_items
      cases hf : findProduct db h0.product_id with
      | none => simpa [hf] using ih hN2.2 hfind hp
      | some p0 =>
        simp only [hf]
        exact ih hN2.2 hfind (by rw [findProduct_update_ne hne]; exact hp)

theorem delete_restore_not_touched (stored : List SaleItem) (db0 : List Product) (P : String)
    (h : ∀ x ∈ stored, x.product_id ≠ P) :
    ∀ acc, findProduct (List.foldl (restore_sale_item db0) acc stored) P = findProduct acc P := by
  induction stored with
  | nil => intro acc; rfl
  | cons it rest ih =>
    intro acc
    rw [List.foldl_cons, ih (fun x hx => h x (List.mem_cons_of_mem _ hx))]
    unfold restore_sale_item
    cases hf : findProduct db0 it.product_id with
    | none => rfl
    | some pz =>
      simp only [hf]
      exact findProduct_update_ne (Ne.symm (h it (List.mem_cons_self it rest))) _ _ _

theorem delete_restore_no_product (stored : List SaleItem) (db0 : List Product) {P : String}
    (hdb0 : findProduct db0 P = none) :
    ∀ acc, findProduct (List.foldl (restore_sale_item db0) acc stored) P = findProduct acc P := by
  induction stored with
  | nil => intro acc; rfl
  | cons it rest ih =>
    intro acc
    rw [List.foldl_cons, ih]
    unfold restore_sale_item
    by_cases hpid : it.product_id = P
    · rw [hpid, hdb0]
    · cases hf : findProduct db0 it.product_id with
      | none => rfl
      | some pz =>
        simp only [hf]
        exact findProduct_update_ne (Ne.symm hpid) _ _ _

theorem delete_restore_found {stored : List SaleItem} (db0 : List Product) {P : String}
    {it : SaleItem} {p0 : Product}
    (hN : (stored.map (fun x => x.product_id)).Nodup)
    (hfind : stored.find? (fun x => x.product_id == P) = some it)
    (hdb0 : findProduct db0 P = some p0) :
    ∀ acc, findProduct (List.foldl (restore_sale_item db0) acc stored) P =
      (findProduct acc P).map (setStockStatus (p0.current_stock + it.quantity)
        (calculate_stock_status (p0.current_stock + it.quantity)
          p0.max_stock p0.low_stock_threshold)) := by
  induction stored with
  | nil => simp at hfind
  | cons h0 rest ih =>
    rw [List.map_cons] at hN
    have hN2 := List.nodup_cons.mp hN
    intro acc
    rw [List.foldl_cons]
    by_cases hh : h0.product_id == P
    · simp only [List.find?_cons, hh] at hfind
      obtain rfl := Option.some.inj hfind
      have hpid : h0.product_id = P := eq_of_beq hh
      have hrest : ∀ x ∈ rest, x.product_id ≠ P := by
        intro x hx hxP
        exact hN2.1 (by rw [hpid, ← hxP]; exact List.mem_map_of_mem _ hx)
      rw [delete_restore_not_touched rest db0 P hrest]
      unfold restore_sale_item
      rw [hpid]
      simp only [hdb0]
      rw [findProduct_update_self]
    · have hh2 : (h0.product_id == P) = false := by simpa using hh
      simp only [List.find?_cons, hh2] at hfind
      have hne : P ≠ h0.product_id := fun e => hh (by rw [e]; exact beq_self_eq_true _)
      have hacc : findProduct (restore_sale_item db0 acc h0) P = findProduct acc P := by
        unfold restore_sale_item
        cases hf : findProduct db0 h0.product_id with
        | none => rfl
        | some pz =>
          simp only [hf]
          exact findProduct_update_ne hne _ _ _
      rw [ih hN2.2 hfind, hacc]

theorem findProduct_unique {db : List Product} (hN : (pids db).Nodup) {r : Product}
    (hr : r ∈ db) : findProduct db r.product_id = some r := by
  unfold pids at hN
  exact find?_key_unique (fun p => p.product_id) hN hr

theorem eq_of_findProduct_of_mem {db : List Product} (hN : (pids db).Nodup)
    {r p : Product} {pid : String} (hr : r ∈ db) (hrpid : r.product_id = pid)
    (hp : findProduct db pid = some p) : r = p := by
  have h1 := findProduct_unique hN hr
  rw [hrpid] at h1
  exact Option.some.inj (h1.symm.trans hp)

theorem create_sale_items_statusInv (items : List SaleItem) {db : List Product}
    (hN : (pids db).Nodup) (hInv : statusInv db) :
    statusInv (create_sale_items items db).1 := by
  induction items generalizing db with
  | nil => exact hInv
  | cons it rest ih =>
    unfold create_sale_items
    cases hf : findProduct db it.product_id with
    | none => simpa [hf] using ih hN hInv
    | some p =>
      simp only [hf]
      apply ih
      · rw [pids_updateProductStock]; exact hN
      · apply statusInv_updateProductStock hInv
        intro r hr hrpid
        rw [eq_of_findProduct_of_mem hN hr hrpid hf]

theorem delete_restore_statusInv (items : List SaleItem) {db0 : List Product}
    (hN : (pids db0).Nodup) :
    ∀ acc, layout acc = layout db0 → statusInv acc →
      statusInv (List.foldl (restore_sale_item db0) acc items) := by
  induction items with
  | nil => exact fun acc _ hInv => hInv
  | cons it rest ih =>
    intro acc hlay hInv
    rw [List.foldl_cons]
    have hNacc : (pids acc).Nodup := by
      rw [pids_eq_map_fst_layout, hlay, ← pids_eq_map_fst_layout]; exact hN
    apply ih
    · unfold restore_sale_item
      cases hf : findProduct db0 it.product_id with
      | none => exact hlay
      | some pz =>
        simp only [hf]
        rw [layout_updateProductStock]; exact hlay
    · unfold restore_sale_item
      cases hf : findProduct db0 it.product_id with
      | none => exact hInv
      | some pz =>
        simp only [hf]
        apply statusInv_updateProductStock hInv
        intro r hr hrpid
        have hru := findProduct_unique hNacc hr
        have hcong := findProduct_layout_congr hlay r.product_id
        rw [hru, hrpid, hf] at hcong
        have hkey : layoutKey r = layoutKey pz := Option.some.inj hcong
        have hmax : r.max_stock = pz.max_stock := congrArg (fun k => k.2.1) hkey
        have hthr : r.low_stock_threshold = pz.low_stock_threshold :=
          congrArg (fun k => k.2.2) hkey
        rw [hmax, hthr]

/-! ## Claim theorems: sale create/delete round trip (C3) -/

/-- C3 counterexample: create-then-delete is not a stock round trip.
With 2 units in stock and a line item of quantity 5 the decrement floors
at 0, and the delete restores 5, not 2.  With 10 units and the same
product in two line items (quantities 2 and 3), the delete reads the
joined product once and restores 8, not 10. -/
theorem sale_round_trip_counterexample :
    (findProduct (delete_sale_restore (create_sale_items [⟨"A", 5⟩] [teaProduct]).1
        (create_sale_items [⟨"A", 5⟩] [teaProduct]).2) "A").map
      (fun p => p.current_stock) = some 5 ∧
    teaProduct.current_stock = 2 ∧
    (findProduct (delete_sale_restore
        (create_sale_items [⟨"B", 2⟩, ⟨"B", 3⟩] [coffeeProduct]).1
        (create_sale_items [⟨"B", 2⟩, ⟨"B", 3⟩] [coffeeProduct]).2) "B").map
      (fun p => p.current_stock) = some 8 ∧
    coffeeProduct.current_stock = 10 := by
  decide

/-- C3 (amended): provided product ids are unique in the table, no product
is referenced by more than one line item, and each line item's quantity is
at most its product's current stock, deleting a sale right after creating
it restores every product's `current_stock` to its pre-create value. -/
theorem sale_create_delete_round_trip (db : List Product) (items : List SaleItem)
    (_hdb : (pids db).Nodup)
    (hitems : (items.map (fun x => x.product_id)).Nodup)
    (hq : ∀ it ∈ items, ∀ p, findProduct db it.product_id = some p →
      it.quantity ≤ p.current_stock) :
    ∀ P, (findProduct (delete_sale_restore (create_sale_items items db).1
        (create_sale_items items db).2) P).map (fun p => p.current_stock) =
      (findProduct db P).map (fun p => p.current_stock) := by
  intro P
  unfold delete_sale_restore
  cases hfi : items.find? (fun x => x.product_id == P) with
  | none =>
    have hnone : ∀ x ∈ items, x.product_id ≠ P := by
      intro x hx hxP
      exact (List.find?_eq_none.mp hfi x hx) (by rw [hxP]; exact beq_self_eq_true _)
    have hstored : ∀ x ∈ (create_sale_items items db).2, x.product_id ≠ P := by
      intro x hx
      rw [create_sale_items_stored] at hx
      exact hnone x (List.mem_of_mem_filter hx)
    rw [delete_restore_not_touched _ _ _ hstored,
        create_sale_items_not_touched _ _ _ hnone]
  | some it =>
    have hitP : it.product_id = P := by simpa using List.find?_some hfi
    have hmem : it ∈ items := List.mem_of_find?_eq_some hfi
    cases hdbP : findProduct db P with
    | none =>
      have hcreated : findProduct (create_sale_items items db).1 P = none := by
        have h1 := findProduct_isSome_congr (create_sale_items_layout items db) P
        rw [hdbP] at h1
        cases hc : findProduct (create_sale_items items db).1 P with
        | none => rfl
        | some c => rw [hc] at h1; simp at h1
      have hstored : ∀ x ∈ (create_sale_items items db).2, x.product_id ≠ P := by
        intro x hx hxP
        rw [create_sale_items_stored] at hx
        have := List.of_mem_filter hx
        rw [hxP, hdbP] at this
        simp at this
      rw [delete_restore_not_touched _ _ _ hstored, hcreated]
    | some p =>
      have hcreated := create_sale_items_found hitems hfi hdbP
      have hstoredfind :
          (create_sale_items items db).2.find? (fun x => x.product_id == P) = some it := by
        rw [create_sale_items_stored, List.find?_filter]
        have hpred : (fun a : SaleItem =>
            decide ((findProduct db a.product_id).isSome = true ∧ (a.product_id == P) = true))
            = (fun a : SaleItem => a.product_id == P) := by
          funext a
          by_cases ha : (a.product_id == P) = true
          · rw [eq_of_beq ha, hdbP]
            simp [ha, eq_of_beq ha]
          · simp [ha]
        rw [hpred]
        exact hfi
      have hstoredN :
          ((create_sale_items items db).2.map (fun x => x.product_id)).Nodup := by
        rw [create_sale_items_stored]
        exact List.Nodup.sublist ((List.filter_sublist items).map _) hitems
      have hfinal := delete_restore_found (create_sale_items items db).1 hstoredN
        hstoredfind hcreated (create_sale_items items db).1
      rw [hfinal, hcreated]
      simp only [Option.map_some', setStockStatus, Option.some.injEq]
      have hqle := hq it hmem p (by rw [hitP]; exact hdbP)
      rw [max_eq_right (by omega : (0 : Int) ≤ p.current_stock - it.quantity)]
      omega

/-- Witness for the amended C3: the spec's worked example (stock 5,
threshold 10, max 50; sale of quantity 3). -/
theorem sale_create_delete_round_trip_witness :
    (findProduct (delete_sale_restore (create_sale_items [⟨"#1000", 3⟩] [exampleProduct]).1
        (create_sale_items [⟨"#1000", 3⟩] [exampleProduct]).2) "#1000").map
      (fun p => p.current_stock) =
      (findProduct [exampleProduct] "#1000").map (fun p => p.current_stock) := by
  apply sale_create_delete_round_trip [exampleProduct] [⟨"#1000", 3⟩]
    (by decide) (by decide)
  intro it hmem p hp
  rw [List.mem_singleton] at hmem
  subst hmem
  have hpe : p = exampleProduct := by
    have h2 : findProduct [exampleProduct]
        (SaleItem.mk "#1000" 3).product_id = some exampleProduct := by decide
    exact (Option.some.inj (h2.symm.trans hp)).symm
  rw [hpe]
  decide

/-! ## Claim theorems: stock decrement on sale creation (C8) -/

/-- C8: when `api_create_sale` processes a line item whose product exists,
it sets that product's `current_stock` to `max(0, old - quantity)` and
recomputes the status from the new stock: first as a characterisation of
one step of the loop, then — for line items over pairwise-distinct
products — as a statement about the final table. -/
theorem api_create_sale_stock_decrement :
    (∀ (db : List Product) (it : SaleItem) (rest : List SaleItem) (p : Product),
      findProduct db it.product_id = some p →
      create_sale_items (it :: rest) db =
        ((create_sale_items rest (updateProductStock db it.product_id
            (max 0 (p.current_stock - it.quantity))
            (calculate_stock_status (max 0 (p.current_stock - it.quantity))
              p.max_stock p.low_stock_threshold))).1,
         it :: (create_sale_items rest (updateProductStock db it.product_id
            (max 0 (p.current_stock - it.quantity))
            (calculate_stock_status (max 0 (p.current_stock - it.quantity))
              p.max_stock p.low_stock_threshold))).2)) ∧
    (∀ (db : List Product) (items : List SaleItem),
      (items.map (fun x => x.product_id)).Nodup →
      ∀ it ∈ items, ∀ p, findProduct db it.product_id = some p →
        findProduct (create_sale_items items db).1 it.product_id =
          some (setStockStatus (max 0 (p.current_stock - it.quantity))
            (calculate_stock_status (max 0 (p.current_stock - it.quantity))
              p.max_stock p.low_stock_threshold) p)) := by
  constructor
  · intro db it rest p hp
    simp only [create_sale_items, hp]
  · intro db items hN it hmem p hp
    exact create_sale_items_found hN (find?_key_unique (fun x => x.product_id) hN hmem) hp

/-- Witness for C8: the example product (stock 5) sold with quantity 3
ends at stock 2, status recomputed to `low_stock`. -/
theorem api_create_sale_stock_decrement_witness :
    findProduct (create_sale_items [⟨"#1000", 3⟩] [exampleProduct]).1 "#1000" =
      some (setStockStatus 2 "low_stock" exampleProduct) := by
  have h := api_create_sale_stock_decrement.2 [exampleProduct] [⟨"#1000", 3⟩]
    (by decide) ⟨"#1000", 3⟩ (by decide) exampleProduct (by decide)
  exact h.trans (by decide)

/-! ## Claim theorems: status invariant (C6) -/

/-- C6: every stock-mutating write of the `products` table — stock add
(new or existing product), product update, sale creation and sale deletion
— preserves the invariant that each row's stored `status` equals
`calculate_stock_status` of its stored stock triple (product ids assumed
unique, as they are a key of the table). -/
theorem status_invariant_preserved (session : Option String) (db : Database)
    (hN : (pids db.products).Nodup) (hInv : statusInv db.products)
    (is_new : Bool) (q : Int) (pn cat pm : String) (pid pid2 : Option String)
    (u : ProductUpdate) (i : Nat) (sid : Option Nat) (ta : ℚ) (items : List SaleItem) :
    statusInv (api_add_stock session db is_new q pn cat pid).1.products ∧
    statusInv (api_update_product session db pid2 u).1.products ∧
    statusInv (api_create_sale session db pm ta items i).1.products ∧
    statusInv (api_delete_sale session db sid).1.products := by
  refine ⟨?_, ?_, ?_, ?_⟩
  · unfold api_add_stock
    split_ifs with h1 h2 h3 h4 h5
    · exact hInv
    · exact hInv
    · exact hInv
    · intro r hr
      rcases List.mem_append.mp hr with hr | hr
      · exact hInv r hr
      · rw [List.mem_singleton] at hr
        subst hr
        rfl
    · exact hInv
    · cases hf : findProduct db.products (pid.getD "") with
      | none => exact hInv
      | some p =>
        apply statusInv_updateProductStock hInv
        intro r hr hrpid
        rw [eq_of_findProduct_of_mem hN hr hrpid hf]
  · unfold api_update_product
    split_ifs with h1 h2 h3 h4
    · exact hInv
    · exact hInv
    · exact hInv
    -- a stock field is present: the written status is derived from
    -- exactly the triple written to the row
    · cases hf : findProduct db.products (pid2.getD "") with
      | none => exact hInv
      | some p0 =>
        intro r' hr'
        obtain ⟨r, hr, rfl⟩ := List.mem_map.mp hr'
        by_cases hid : r.product_id == pid2.getD ""
        · have hrp : r = p0 := eq_of_findProduct_of_mem hN hr (eq_of_beq hid) hf
          have hpidP : p0.product_id = pid2.getD "" := by rw [← hrp]; exact eq_of_beq hid
          simp [applyProductUpdate, hrp, hpidP]
        · simpa [hid] using hInv r hr
    -- no stock field present: the stored triple and status are unchanged
    · cases hf : findProduct db.products (pid2.getD "") with
      | none => exact hInv
      | some p0 =>
        intro r' hr'
        obtain ⟨r, hr, rfl⟩ := List.mem_map.mp hr'
        have htf : (u.current_stock.isSome || u.max_stock.isSome ||
            u.low_stock_threshold.isSome) = false := by
          have h5 : u.touchesStock = false := by simpa using h4
          unfold ProductUpdate.touchesStock at h5
          simpa using h5
        rw [Bool.or_eq_false_iff, Bool.or_eq_false_iff] at htf
        have hcs : u.current_stock = none :=
          Option.not_isSome_iff_eq_none.mp (by simp [htf.1.1])
        have hms : u.max_stock = none :=
          Option.not_isSome_iff_eq_none.mp (by simp [htf.1.2])
        have hts : u.low_stock_threshold = none :=
          Option.not_isSome_iff_eq_none.mp (by simp [htf.2])
        by_cases hid : r.product_id == pid2.getD ""
        · simp only [hid]
          simpa [applyProductUpdate, hcs, hms, hts] using hInv r hr
        · simpa [hid] using hInv r hr
  · unfold api_create_sale
    split_ifs with h1 h2
    · exact hInv
    · exact hInv
    · exact create_sale_items_statusInv items hN hInv
  · unfold api_delete_sale
    split_ifs with h1 h2
    · exact hInv
    · exact hInv
    · cases hf : db.sales.find? (fun sl => sl.id == sid.getD 0) with
      | none => exact hInv
      | some sl =>
        unfold delete_sale_restore
        exact delete_restore_statusInv _ hN db.products rfl hInv

/-- Witness for C6: both paths of a stock add and a sale creation over the
two-product fixture keep stored statuses equal to the derived ones. -/
theorem status_invariant_preserved_witness :
    statusInv (api_add_stock (some "u1") demoDatabase false 5 "" "" (some "A")).1.products ∧
    statusInv (api_create_sale (some "u1") demoDatabase "cash" 10 [⟨"A", 1⟩] 7).1.products := by
  have h := status_invariant_preserved (some "u1") demoDatabase
    (by decide) (by unfold statusInv; decide) false 5 "" "" "cash" (some "A") (some "A")
    ⟨none, none, none, none, none, none⟩ 7 none 10 [⟨"A", 1⟩]
  exact ⟨h.1, h.2.2.1⟩

/-! ## Claim theorems: invitation acceptance (C7, C1) -/

/-- C7: `invitation_accept_submit` performs the pending-to-accepted
transition (auth account created, status set to `active`,
`invitation_accepted_at` recorded, token cleared) only when a row matches
the token, the invitation was not previously accepted, the password passes
the length-8 and upper/lower/digit checks, the confirmation matches, and
the auth-account creation succeeds; on any failure the employees table is
unchanged. -/
theorem invitation_accept_submit_spec (employees : List Employee)
    (token password confirm_password : String) (auth_ok : Bool) (now : ℚ) :
    ((invitation_accept_submit employees token password confirm_password auth_ok now).2 ≠
        .success →
      (invitation_accept_submit employees token password confirm_password auth_ok now).1 =
        employees) ∧
    ((invitation_accept_submit employees token password confirm_password auth_ok now).2 =
        .success →
      ∃ emp, employees.find? (fun e => e.invitation_token == some token) = some emp ∧
        emp.invitation_accepted_at = none ∧
        password = confirm_password ∧
        8 ≤ password.length ∧
        hasUpper password = true ∧ hasLower password = true ∧ hasDigit password = true ∧
        auth_ok = true ∧
        (invitation_accept_submit employees token password confirm_password auth_ok now).1 =
          employees.map (fun e => if e.id == emp.id then
            { e with status := "active", invitation_accepted_at := some now,
                     invitation_token := none } else e)) := by
  unfold invitation_accept_submit
  by_cases h1 : password = "" ∨ confirm_password = ""
  · rw [if_pos h1]
    exact ⟨fun _ => rfl, fun hc => nomatch hc⟩
  rw [if_neg h1]
  by_cases h2 : password ≠ confirm_password
  · rw [if_pos h2]
    exact ⟨fun _ => rfl, fun hc => nomatch hc⟩
  rw [if_neg h2]
  by_cases h3 : password.length < 8
  · rw [if_pos h3]
    exact ⟨fun _ => rfl, fun hc => nomatch hc⟩
  rw [if_neg h3]
  by_cases h4 : ¬ (hasUpper password ∧ hasLower password ∧ hasDigit password)
  · rw [if_pos h4]
    exact ⟨fun _ => rfl, fun hc => nomatch hc⟩
  rw [if_neg h4]
  cases hfind : employees.find? (fun e => e.invitation_token == some token) with
  | none => exact ⟨fun _ => rfl, fun hc => nomatch hc⟩
  | some emp =>
    dsimp only
    by_cases h6 : emp.invitation_accepted_at.isSome = true
    · rw [if_pos h6]
      exact ⟨fun _ => rfl, fun hc => nomatch hc⟩
    rw [if_neg h6]
    by_cases h5 : auth_ok = true
    · rw [if_pos h5]
      refine ⟨fun h => absurd rfl h, fun _ => ⟨emp, rfl, ?_, ?_, ?_, ?_, ?_, ?_, h5, rfl⟩⟩
      · exact Option.not_isSome_iff_eq_none.mp h6
      · exact not_ne_iff.mp h2
      · omega
      · exact (not_not.mp h4).1
      · exact (not_not.mp h4).2.1
      · exact (not_not.mp h4).2.2
    · rw [if_neg h5]
      exact ⟨fun _ => rfl, fun hc => nomatch hc⟩

/-- Witness for C7: a too-short password leaves the fixture row unchanged. -/
theorem invitation_accept_submit_spec_witness :
    (invitation_accept_submit [pendingEmployee] "tok" "short" "short" true 100).1 =
      [pendingEmployee] :=
  (invitation_accept_submit_spec [pendingEmployee] "tok" "short" "short" true 100).1
    (by decide)

/-- C1 (code bug): the POST handler `invitation_accept_submit` never
checks `invitation_sent_at` against the expiry window.  For a token sent
100 hours ago with the default 48-hour expiry, the GET page
`invitation_accept_view` reports the invitation invalid, yet submitting
the form succeeds and activates the employee. -/
theorem invitation_submit_ignores_expiry :
    invitation_accept_view [pendingEmployee] "tok" 100 48 = .invalid ∧
    (invitation_accept_submit [pendingEmployee] "tok" "Passw0rd" "Passw0rd" true 100).2 =
      .success ∧
    ((invitation_accept_submit [pendingEmployee] "tok" "Passw0rd" "Passw0rd" true 100).1.map
      (fun e => e.status)) = ["active"] := by
  with_unfolding_all decide

end SmartRetail
